import Mathlib

/-!
Verification development for the SynapseStats aggregation engine
(src/synapsestats.py, class SynapseStats).

The Python module is shallowly embedded: every message record is a Lean
value of type Msg mirroring the JSON keys the code reads, Python
datetime objects are wall-clock seconds plus an optional UTC offset
(offset = none models a naive datetime), Python floats are modelled as
rationals, and each query method of the class becomes a Lean function on
a list of records.  Exceptions that the code catches with a bare except
clause are modelled with Option: a none result at the corresponding point
takes the except branch of the source.
-/

namespace SynapseStats

/-! ## Python datetime model

A Python datetime is modelled by the seconds read on its own wall clock
(seconds since 0001-01-01 00:00:00 of its own calendar) together with an
optional UTC offset in seconds.  offset = none is a naive datetime.
-/

/-- Model of a Python datetime value: wall-clock seconds plus optional
UTC offset in seconds (none = naive).  The wall clock is carried as an
unbounded integer; every datetime the program actually builds lies in
the year 1 to 9999 range of real Python datetimes (the parser validates
its four-digit year, and the clock is in range), and the one place
where an arithmetic result can leave that range — the whole-day
subtractions of get_timeline, which then raise OverflowError — is
modelled explicitly by pySubDays below. -/
structure PyDateTime where
  wall : Int
  offset : Option Int
deriving DecidableEq, Repr

/-- Value of a decimal digit character, none otherwise. -/
def digitVal (c : Char) : Option Nat :=
  if 48 ≤ c.toNat ∧ c.toNat ≤ 57 then some (c.toNat - 48) else none

/-- Reads exactly two decimal digits. -/
def read2 : List Char → Option (Nat × List Char)
  | a :: b :: rest => do
    let x ← digitVal a
    let y ← digitVal b
    pure (10 * x + y, rest)
  | _ => none

/-- Reads exactly four decimal digits. -/
def read4 : List Char → Option (Nat × List Char)
  | a :: b :: c :: d :: rest => do
    let x ← digitVal a
    let y ← digitVal b
    let z ← digitVal c
    let w ← digitVal d
    pure (1000 * x + 100 * y + 10 * z + w, rest)
  | _ => none

/-- Consumes one expected character. -/
def expectChar (c : Char) : List Char → Option (List Char)
  | x :: rest => if x = c then some rest else none
  | [] => none

/-- Gregorian leap-year test, as in Python's calendar rules. -/
def isLeap (y : Nat) : Bool :=
  (y % 4 == 0 && y % 100 != 0) || y % 400 == 0

/-- Number of days in a month of a given year. -/
def daysInMonth (y m : Nat) : Nat :=
  if m = 2 then (if isLeap y then 29 else 28)
  else if m = 4 ∨ m = 6 ∨ m = 9 ∨ m = 11 then 30
  else 31

/-- Days in year y that precede month m. -/
def daysBeforeMonth (y m : Nat) : Nat :=
  (List.range (m - 1)).foldl (fun acc i => acc + daysInMonth y (i + 1)) 0

/-- Day number of a calendar date in the proleptic Gregorian calendar,
with 0001-01-01 as day 0 (Python date.toordinal minus one). -/
def dayNumber (y m d : Nat) : Nat :=
  let py := y - 1
  py * 365 + py / 4 - py / 100 + py / 400 + daysBeforeMonth y m + (d - 1)

/-- Parses the date part YYYY-MM-DD of an ISO string, validating the
ranges exactly as datetime.fromisoformat does, and returns its day
number. -/
def parseDate (cs : List Char) : Option (Nat × List Char) := do
  let (y, cs) ← read4 cs
  let cs ← expectChar '-' cs
  let (m, cs) ← read2 cs
  let cs ← expectChar '-' cs
  let (d, cs) ← read2 cs
  if 1 ≤ y ∧ 1 ≤ m ∧ m ≤ 12 ∧ 1 ≤ d ∧ d ≤ daysInMonth y m then
    pure (dayNumber y m d, cs)
  else none

/-- Parses a time of day HH, HH:MM or HH:MM:SS and returns the second of
the day. -/
def parseHMS (cs : List Char) : Option (Nat × List Char) := do
  let (h, cs) ← read2 cs
  if h ≥ 24 then none
  else
    match cs with
    | ':' :: cs₁ => do
      let (mi, cs₂) ← read2 cs₁
      if mi ≥ 60 then none
      else
        match cs₂ with
        | ':' :: cs₃ => do
          let (s, cs₄) ← read2 cs₃
          if s ≥ 60 then none else pure (h * 3600 + mi * 60 + s, cs₄)
        | _ => pure (h * 3600 + mi * 60, cs₂)
    | _ => pure (h * 3600, cs)

/-- Parses the HH:MM body of a UTC offset, in seconds. -/
def parseOffBody (cs : List Char) : Option (Int × List Char) := do
  let (h, cs) ← read2 cs
  let cs ← expectChar ':' cs
  let (m, cs) ← read2 cs
  if h ≥ 24 ∨ m ≥ 60 then none
  else pure ((h * 3600 + m * 60 : Nat), cs)

/-- Parses an optional trailing UTC offset of the form +HH:MM or -HH:MM. -/
def parseOffset : List Char → Option (Option Int × List Char)
  | [] => pure (none, [])
  | '+' :: cs => do
    let (o, cs₁) ← parseOffBody cs
    pure (some o, cs₁)
  | '-' :: cs => do
    let (o, cs₁) ← parseOffBody cs
    pure (some (-o), cs₁)
  | _ => none

/-- Model of datetime.fromisoformat on the subset of ISO-8601 strings the
repository works with: YYYY-MM-DD, optionally followed by a separator T
or space and a time HH[:MM[:SS]], optionally followed by an offset
+HH:MM or -HH:MM.  Returns none where Python raises ValueError. -/
def parseIso (cs : List Char) : Option PyDateTime := do
  let (dayN, rest) ← parseDate cs
  match rest with
  | [] => pure ⟨(dayN : Int) * 86400, none⟩
  | sep :: rest₁ =>
    if sep = 'T' ∨ sep = ' ' then do
      let (secs, rest₂) ← parseHMS rest₁
      let (off, rest₃) ← parseOffset rest₂
      if rest₃ = [] then pure ⟨(dayN : Int) * 86400 + (secs : Int), off⟩ else none
    else none

/-- Model of the single-character replacement str.replace applied to the
pattern Z at every call site of the source before parsing. -/
def zReplace (s : String) : List Char :=
  (s.data.map (fun c => if c = 'Z' then ['+', '0', '0', ':', '0', '0'] else [c])).flatten

/-- Model of the idiom fromisoformat(s.replace(Z, +00:00)) used at every
timestamp-parsing site of the source. -/
def fromisoZ (s : String) : Option PyDateTime :=
  parseIso (zReplace s)

/-- Model of the comparison a >= b on Python datetimes: naive pairs
compare by wall clock, aware pairs by UTC instant, and a mixed pair
raises TypeError, modelled as none. -/
def pyGE (a b : PyDateTime) : Option Bool :=
  match a.offset, b.offset with
  | none, none => some (decide (a.wall ≥ b.wall))
  | some oa, some ob => some (decide (a.wall - oa ≥ b.wall - ob))
  | _, _ => none

/-- Model of the subtraction a - b on Python datetimes, in seconds: a
mixed naive/aware pair raises TypeError, modelled as none. -/
def pySubSec (a b : PyDateTime) : Option Int :=
  match a.offset, b.offset with
  | none, none => some (a.wall - b.wall)
  | some oa, some ob => some ((a.wall - oa) - (b.wall - ob))
  | _, _ => none

/-- Model of strftime with format %Y-%m-%d: the calendar date of the
wall clock, identified with its day number (the rendered date strings
are in bijection with day numbers, so buckets keyed by the string are
keyed by this integer). -/
def dateKey (t : PyDateTime) : Int :=
  Int.fdiv t.wall 86400

/-! ## Record model

A message record is modelled by the JSON keys the engine reads.  An
absent timestamp and the default value of msg.get are both the empty
string, an absent replied_by and the default empty list coincide, and
the to field keeps the three shapes the code distinguishes. -/

/-- Shape of the to field of a record: absent, a single string, or a
list of strings. -/
inductive ToField
  | absent
  | single (s : String)
  | many (l : List String)
deriving DecidableEq, Repr

/-- Entry of the replied_by list: either a JSON value that is not an
object (isinstance dict fails on it) or an object with optional ai and
timestamp keys. -/
inductive ReplyEntry
  | notDict
  | dict (ai : Option String) (timestamp : Option String)
deriving DecidableEq, Repr

/-- Model of one message record, restricted to the keys the engine
reads. -/
structure Msg where
  sender : Option String
  to_ : ToField
  priority : Option String
  timestamp : String
  replied_by : List ReplyEntry
deriving DecidableEq, Repr

/-- Model of the normalization applied to the to field: msg.get with
default empty list, then a single string wrapped into a one-element
list. -/
def toListOf (m : Msg) : List String :=
  match m.to_ with
  | .absent => []
  | .single s => [s]
  | .many l => l

/-- Model of msg.get with key from and default UNKNOWN. -/
def senderKeyOf (m : Msg) : String := m.sender.getD "UNKNOWN"

/-- Model of msg.get with key priority and default NORMAL. -/
def priorityKeyOf (m : Msg) : String := m.priority.getD "NORMAL"

/-! ## Fixed-point formatting

Python floats are modelled as rationals; the format specifier .1f is
modelled by rounding to the nearest tenth with ties to even, then
rendering sign, integer part, a dot and one digit. -/

/-- Floor of a rational, computed from its reduced fraction so that the
kernel can evaluate it. -/
def rfloor (q : ℚ) : Int := q.num.fdiv q.den

/-- Nearest integer to 10 q, ties to even: the integer whose tenths the
format specifier .1f prints. -/
def roundTenths (q : ℚ) : Int :=
  let f := rfloor (10 * q)
  let frac := 10 * q - f
  if frac < 1 / 2 then f
  else if frac > 1 / 2 then f + 1
  else if f % 2 = 0 then f else f + 1

/-- Renders n tenths as a decimal numeral with one fractional digit. -/
def fmtTenths (n : Int) : String :=
  if n < 0 then "-" ++ (toString (n.natAbs / 10) ++ "." ++ toString (n.natAbs % 10))
  else toString (n.toNat / 10) ++ "." ++ toString (n.toNat % 10)

/-- Model of the Python format specifier .1f applied to a rational. -/
def formatFixed1 (q : ℚ) : String := fmtTenths (roundTenths q)

/-- Numeric value denoted by the string formatFixed1 q: its tenths over
ten. -/
def fixed1Val (q : ℚ) : ℚ := (roundTenths q : ℚ) / 10

/-! ## get_summary -/

/-- Model of the Counter insertion order: first-occurrence order of the
keys of a list. -/
def counterKeys (l : List String) : List String :=
  l.foldl (fun acc k => if acc.contains k then acc else acc ++ [k]) []

/-- Stable insertion of a pair into a list sorted by descending count:
the pair walks past entries of strictly greater count and lands before
the first entry of equal or smaller count, so ties keep first-occurrence
order, as the stable sorted with reverse inside Counter.most_common
does. -/
def insertDesc (p : String × Nat) : List (String × Nat) → List (String × Nat)
  | [] => [p]
  | q :: rest => if q.2 > p.2 then q :: insertDesc p rest else p :: q :: rest

/-- Stable sort by descending count, the order produced by sorted with
reverse on the second component. -/
def sortDesc : List (String × Nat) → List (String × Nat)
  | [] => []
  | p :: rest => insertDesc p (sortDesc rest)

/-- Model of Counter.most_common over the multiset of keys l: each
distinct key paired with its multiplicity, sorted by descending count
with ties in first-occurrence order. -/
def mostCommon (l : List String) : List (String × Nat) :=
  sortDesc ((counterKeys l).map (fun k => (k, l.count k)))

/-- Model of by_sender.most_common(1)[0] with the ("None", 0) fallback
of the source for an empty counter. -/
def mostActive (l : List String) : String × Nat :=
  match mostCommon l with
  | [] => ("None", 0)
  | p :: _ => p

/-- Result of get_summary: the source returns one of two dict shapes,
the empty-state dict carrying only total_messages and error, or the full
statistics dict. -/
inductive SummaryResult
  | emptyState (total_messages : Nat) (error : String)
  | stats (total_messages total_replies messages_with_replies messages_no_replies : Nat)
      (reply_rate : String)
      (by_sender by_priority : List (String × Nat))
      (most_active_agent : String) (most_active_count : Nat)
deriving DecidableEq, Repr

/-- The total_messages entry, present in both shapes. -/
def SummaryResult.total_messages : SummaryResult → Nat
  | .emptyState t _ => t
  | .stats t _ _ _ _ _ _ _ _ => t

/-- The by_sender entry when present. -/
def SummaryResult.bySender : SummaryResult → Option (List (String × Nat))
  | .stats _ _ _ _ _ bs _ _ _ => some bs
  | _ => none

/-- The by_priority entry when present. -/
def SummaryResult.byPriority : SummaryResult → Option (List (String × Nat))
  | .stats _ _ _ _ _ _ bp _ _ => some bp
  | _ => none

/-- The reply_rate entry when present. -/
def SummaryResult.replyRate : SummaryResult → Option String
  | .stats _ _ _ _ rr _ _ _ _ => some rr
  | _ => none

/-- The most_active_agent entry when present. -/
def SummaryResult.mostActiveAgent : SummaryResult → Option String
  | .stats _ _ _ _ _ _ _ ma _ => some ma
  | _ => none

/-- The most_active_count entry when present. -/
def SummaryResult.mostActiveCount : SummaryResult → Option Nat
  | .stats _ _ _ _ _ _ _ _ mc => some mc
  | _ => none

/-- The messages_with_replies entry when present. -/
def SummaryResult.messagesWithReplies : SummaryResult → Option Nat
  | .stats _ _ w _ _ _ _ _ _ => some w
  | _ => none

/-- Number of records whose replied_by is non-empty. -/
def repliedCount (msgs : List Msg) : Nat :=
  (msgs.filter (fun m => !m.replied_by.isEmpty)).length

/-- Sum of the replied_by lengths over records with a non-empty
replied_by, as accumulated by the loop of the source. -/
def totalReplies (msgs : List Msg) : Nat :=
  (msgs.map (fun m => if m.replied_by.isEmpty then 0 else m.replied_by.length)).sum

/-- Model of SynapseStats.get_summary. -/
def get_summary (msgs : List Msg) : SummaryResult :=
  let total := msgs.length
  if total = 0 then .emptyState 0 "No messages found"
  else
    let senders := msgs.map senderKeyOf
    let priorities := msgs.map priorityKeyOf
    let replied_count := repliedCount msgs
    let reply_rate : ℚ := (replied_count : ℚ) / total * 100
    let ma := mostActive senders
    .stats total (totalReplies msgs) replied_count (total - replied_count)
      (formatFixed1 reply_rate ++ "%")
      (mostCommon senders) (mostCommon priorities) ma.1 ma.2

/-! ## get_agent_stats -/

/-- Model of str.upper for the ASCII agent names of the repository. -/
def pyUpper (s : String) : String := String.mk (s.data.map Char.toUpper)

/-- Result of get_agent_stats. -/
structure AgentStats where
  agent : String
  messages_sent : Nat
  messages_received : Nat
  messages_replied_to : Nat
  response_rate : String
deriving DecidableEq, Repr

/-- Test applied to each replied_by entry by get_agent_stats: the entry
is a dict whose ai key, defaulted to the empty string, equals the
upper-cased query name. -/
def replyByAgent (agent_upper : String) : ReplyEntry → Bool
  | .notDict => false
  | .dict ai _ => ai.getD "" = agent_upper

/-- Model of SynapseStats.get_agent_stats. -/
def get_agent_stats (msgs : List Msg) (agent_name : String) : AgentStats :=
  let agent_upper := pyUpper agent_name
  let sent := msgs.filter (fun m => m.sender.getD "" = agent_upper)
  let received := msgs.filter (fun m =>
    (toListOf m).contains agent_upper || (toListOf m).contains "ALL_AGENTS")
  let replied_to := msgs.filter (fun m => m.replied_by.any (replyByAgent agent_upper))
  { agent := agent_name
    messages_sent := sent.length
    messages_received := received.length
    messages_replied_to := replied_to.length
    response_rate :=
      if received.isEmpty then "N/A"
      else formatFixed1 ((replied_to.length : ℚ) / received.length * 100) ++ "%" }

/-! ## get_timeline

The two calls to datetime.now() in the source are modelled by one
parameter nowWall, the naive wall clock at invocation time. -/

/-- Bucket key assigned to a record by the timeline loop: the day number
of its parsed timestamp when the timestamp string is non-empty, parses,
and compares greater or equal to the cutoff; none when the loop body
skips the record, including the case where the comparison raises
TypeError and the bare except swallows it. -/
def tlKey (cutoff : PyDateTime) (m : Msg) : Option Int :=
  if m.timestamp = "" then none
  else
    match fromisoZ m.timestamp with
    | none => none
    | some t =>
      match pyGE t cutoff with
      | some true => some (dateKey t)
      | _ => none

/-- The defaultdict of the timeline loop, as a function from day number
to count. -/
def timelineBuckets (msgs : List Msg) (cutoff : PyDateTime) : Int → Nat :=
  msgs.foldl
    (fun tl m =>
      match tlKey cutoff m with
      | some d => fun x => if x = d then tl x + 1 else tl x
      | none => tl)
    (fun _ => 0)

/-- Model of SynapseStats.get_timeline: the dense result dict, as the
list of date keys in insertion order paired with their counts. -/
def get_timeline (msgs : List Msg) (nowWall : Int) (days : Nat) : List (Int × Nat) :=
  let cutoff : PyDateTime := ⟨nowWall - (days : Int) * 86400, none⟩
  let tl := timelineBuckets msgs cutoff
  (List.range days).map (fun (i : Nat) =>
    let date := dateKey ⟨nowWall - ((days : Int) - (i : Int) - 1) * 86400, none⟩
    (date, tl date))

/-- Last wall-clock second representable by a Python datetime:
9999-12-31 23:59:59. -/
def maxDatetimeWall : Int :=
  (dayNumber 9999 12 31 : Int) * 86400 + 86399

/-- Model of the subtraction now - timedelta(days=d) on a naive
datetime: Python raises OverflowError when the result leaves the year 1
to 9999 datetime range, modelled as none. -/
def pySubDays (w d : Int) : Option Int :=
  let r := w - d * 86400
  if 0 ≤ r ∧ r ≤ maxDatetimeWall then some r else none

/-- Model of SynapseStats.get_timeline with the OverflowError of its two
datetime subtractions made explicit: the cutoff subtraction runs first
and outside any try block, then the per-record loop (whose failures are
all swallowed), then one subtraction per filled day; a none anywhere is
an uncaught OverflowError that aborts the call, discarding any result
built so far.  On in-range inputs this agrees with get_timeline. -/
def get_timeline_checked (msgs : List Msg) (nowWall : Int) (days : Nat) :
    Option (List (Int × Nat)) := do
  let cutoffWall ← pySubDays nowWall (days : Int)
  let tl := timelineBuckets msgs ⟨cutoffWall, none⟩
  let dateWalls ← (List.range days).mapM
    (fun (i : Nat) => pySubDays nowWall ((days : Int) - (i : Int) - 1))
  pure (dateWalls.map (fun w => (dateKey ⟨w, none⟩, tl (dateKey ⟨w, none⟩))))

/-! ## get_response_times -/

/-- Inner loop of get_response_times over the replied_by list of one
record whose own timestamp parsed to mt.  Entries that are not dicts or
lack a timestamp key are skipped one by one; a reply timestamp that
fails to parse, or a subtraction that raises TypeError, aborts the rest
of the list because the enclosing try covers the whole loop. -/
def collectReplies (mt : PyDateTime) : List ReplyEntry → List ℚ
  | [] => []
  | .notDict :: rs => collectReplies mt rs
  | .dict _ none :: rs => collectReplies mt rs
  | .dict _ (some ts) :: rs =>
    match fromisoZ ts with
    | none => []
    | some rt =>
      match pySubSec rt mt with
      | none => []
      | some secs => ((secs : ℚ) / 60) :: collectReplies mt rs

/-- Response-time samples contributed by one record, in minutes. -/
def recordSamples (m : Msg) : List ℚ :=
  if m.timestamp = "" ∨ m.replied_by = [] then []
  else
    match fromisoZ m.timestamp with
    | none => []
    | some mt => collectReplies mt m.replied_by

/-- All response-time samples of a record collection, in traversal
order. -/
def responseSamples (msgs : List Msg) : List ℚ :=
  (msgs.map recordSamples).flatten

/-- Result of get_response_times. -/
structure ResponseTimes where
  messages_analyzed : Nat
  average_minutes : String
  fastest_minutes : String
  slowest_minutes : String
deriving DecidableEq, Repr

/-- Model of the Python builtin min on a non-empty list (zero on the
empty list, which the source never reaches). -/
def listMin : List ℚ → ℚ
  | [] => 0
  | x :: xs => xs.foldl min x

/-- Model of the Python builtin max on a non-empty list (zero on the
empty list, which the source never reaches). -/
def listMax : List ℚ → ℚ
  | [] => 0
  | x :: xs => xs.foldl max x

/-- Model of SynapseStats.get_response_times. -/
def get_response_times (msgs : List Msg) : ResponseTimes :=
  let ts := responseSamples msgs
  if ts.isEmpty then
    { messages_analyzed := 0
      average_minutes := "N/A"
      fastest_minutes := "N/A"
      slowest_minutes := "N/A" }
  else
    { messages_analyzed := ts.length
      average_minutes := formatFixed1 (ts.sum / ts.length)
      fastest_minutes := formatFixed1 (listMin ts)
      slowest_minutes := formatFixed1 (listMax ts) }

/-! ## get_communication_matrix -/

/-- Model of SynapseStats.get_communication_matrix: the nested
defaultdict as a function from sender and recipient to count. -/
def get_communication_matrix (msgs : List Msg) : String → String → Nat :=
  msgs.foldl
    (fun mat m =>
      let from_agent := senderKeyOf m
      (toListOf m).foldl
        (fun mat2 to_agent =>
          fun a b => if a = from_agent ∧ b = to_agent then mat2 a b + 1 else mat2 a b)
        mat)
    (fun _ _ => 0)

/-! ## Lemmas about the communication matrix -/

/-- Effect of the inner recipient loop of get_communication_matrix on an
arbitrary cell: the cell for the sender gains the number of occurrences
of the recipient in the list, every other cell is untouched. -/
lemma innerFold_apply (l : List String) (mat : String → String → Nat)
    (fa s r : String) :
    (l.foldl
        (fun mat2 to_agent =>
          fun a b => if a = fa ∧ b = to_agent then mat2 a b + 1 else mat2 a b)
        mat) s r
      = mat s r + (if s = fa then l.count r else 0) := by
  induction l generalizing mat with
  | nil => simp
  | cons t l ih =>
    simp only [List.foldl_cons, ih, List.count_cons]
    by_cases hs : s = fa
    · by_cases hr : r = t
      · simp [hs, hr]
        ring
      · simp [hs, hr]
        exact fun h => hr h.symm
    · simp [hs]

/-- Effect of the whole fold of get_communication_matrix on an arbitrary
cell, for an arbitrary starting matrix. -/
lemma matrixFold_apply (msgs : List Msg) (mat : String → String → Nat)
    (s r : String) :
    (msgs.foldl
        (fun mat m =>
          (toListOf m).foldl
            (fun mat2 to_agent =>
              fun a b => if a = senderKeyOf m ∧ b = to_agent then mat2 a b + 1 else mat2 a b)
            mat)
        mat) s r
      = mat s r
        + (msgs.map (fun m => if s = senderKeyOf m then (toListOf m).count r else 0)).sum := by
  induction msgs generalizing mat with
  | nil => simp
  | cons m ms ih =>
    simp only [List.foldl_cons, ih, List.map_cons, List.sum_cons, innerFold_apply]
    ring

/-- C8.  Matrix additivity: every cell of get_communication_matrix
equals the sum, over the records, of the number of occurrences of the
recipient in the record's normalized recipient sequence when the record's
sender matches — so a record with K recipients contributes K increments,
one per occurrence; in particular a single record from sender S with
duplicate recipients A, A puts 2 in the cell for S and A. -/
theorem communication_matrix_additivity :
    (∀ (msgs : List Msg) (s r : String),
      get_communication_matrix msgs s r
        = (msgs.map (fun m => if s = senderKeyOf m then (toListOf m).count r else 0)).sum)
    ∧ get_communication_matrix
        [{ sender := some "S", to_ := .many ["A", "A"], priority := none,
           timestamp := "", replied_by := [] }] "S" "A" = 2 := by
  constructor
  · intro msgs s r
    simpa using matrixFold_apply msgs (fun _ _ => 0) s r
  · decide

/-! ## Lemmas about the timeline -/

/-- Value of the timeline defaultdict at a key, starting from an
arbitrary accumulator: the records whose bucket key is that key are
counted on top of the accumulator. -/
lemma timelineFold_apply (msgs : List Msg) (cutoff : PyDateTime)
    (f : Int → Nat) (d : Int) :
    (msgs.foldl
        (fun tl m =>
          match tlKey cutoff m with
          | some d₀ => fun x => if x = d₀ then tl x + 1 else tl x
          | none => tl)
        f) d
      = f d + msgs.countP (fun m => tlKey cutoff m == some d) := by
  induction msgs generalizing f with
  | nil => simp
  | cons m ms ih =>
    simp only [List.foldl_cons, List.countP_cons, ih]
    cases h : tlKey cutoff m with
    | none => simp [h]
    | some d₀ =>
      by_cases hd : d = d₀
      · subst hd
        simp [h]
        ring
      · simp [h, Option.some_inj, Ne.symm, hd]

/-- The timeline defaultdict counts, at each key, exactly the records
whose bucket key is that key. -/
lemma timelineBuckets_eq_countP (msgs : List Msg) (cutoff : PyDateTime) (d : Int) :
    timelineBuckets msgs cutoff d
      = msgs.countP (fun m => tlKey cutoff m == some d) := by
  simpa using timelineFold_apply msgs cutoff (fun _ => 0) d

/-- Subtracting whole days moves the calendar date by that many days. -/
lemma dateKey_sub_days (w k : Int) :
    dateKey ⟨w - k * 86400, none⟩ = dateKey ⟨w, none⟩ - k := by
  show Int.fdiv (w - k * 86400) 86400 = Int.fdiv w 86400 - k
  rw [Int.fdiv_eq_ediv _ (by norm_num), Int.fdiv_eq_ediv _ (by norm_num)]
  have : w - k * 86400 = w + (-k) * 86400 := by ring
  rw [this, Int.add_mul_ediv_right _ _ (by norm_num)]
  ring

/-- Option-valued mapM is total when the function succeeds on every
element of the list. -/
lemma mapM_eq_some_map {α β : Type} (f : α → Option β) (g : α → β) :
    ∀ (l : List α), (∀ a ∈ l, f a = some (g a)) → l.mapM f = some (l.map g) := by
  intro l
  induction l with
  | nil => intro _; rfl
  | cons a l ih =>
    intro h
    rw [List.mapM_cons, h a (by simp), ih (fun x hx => h x (by simp [hx]))]
    rfl

/-- C5 counterexample.  The claim quantifies over every N at or above 0,
but with the clock at 2026-01-18 12:00:00 the cutoff subtraction
now - timedelta(days=N) for N = 739634 falls before year 1 and raises an
uncaught OverflowError: get_timeline returns no mapping at all there,
let alone one with N keys. -/
theorem timeline_overflow_for_large_days :
    get_timeline_checked [] (739633 * 86400 + 43200) 739634 = none
    ∧ pySubDays (739633 * 86400 + 43200) 739634 = none := by
  refine ⟨by decide, by decide⟩

/-- C5 amended.  Whenever the clock is in the datetime range and the
cutoff now minus days days does not fall before year 1 — so that neither
whole-day subtraction of the source raises OverflowError — get_timeline
returns (and the overflow-explicit model agrees) exactly days entries,
keyed by the days consecutive calendar dates ending today inclusive;
each count is the number of records whose bucket key is that date
(hence at least zero, and zero when no record falls on the date); and a
record the loop skips — not parseable, or not at least the cutoff,
including the swallowed TypeError case — never changes the result.  For
larger day counts the cutoff subtraction raises before any result is
built, as the counterexample shows. -/
theorem timeline_dense_window_in_range (msgs : List Msg) (nowWall : Int) (days : Nat)
    (hcut : 0 ≤ nowWall - (days : Int) * 86400)
    (hnow : nowWall ≤ maxDatetimeWall) :
    get_timeline_checked msgs nowWall days = some (get_timeline msgs nowWall days)
    ∧ (get_timeline msgs nowWall days).length = days
    ∧ (get_timeline msgs nowWall days).map Prod.fst
        = (List.range days).map
            (fun (i : Nat) => dateKey ⟨nowWall, none⟩ - ((days : Int) - (i : Int) - 1))
    ∧ (∀ p ∈ get_timeline msgs nowWall days,
        p.2 = msgs.countP
          (fun m => tlKey ⟨nowWall - (days : Int) * 86400, none⟩ m == some p.1))
    ∧ ∀ m, tlKey ⟨nowWall - (days : Int) * 86400, none⟩ m = none →
        get_timeline (m :: msgs) nowWall days = get_timeline msgs nowWall days := by
  refine ⟨?_, by simp only [get_timeline, List.length_map, List.length_range], ?_, ?_, ?_⟩
  · have hdays : (0 : Int) ≤ (days : Int) := Int.natCast_nonneg days
    have hc : pySubDays nowWall (days : Int) = some (nowWall - (days : Int) * 86400) := by
      rw [pySubDays, if_pos]
      exact ⟨hcut, by nlinarith⟩
    have hfill : ∀ i ∈ List.range days,
        pySubDays nowWall ((days : Int) - (i : Int) - 1)
          = some (nowWall - ((days : Int) - (i : Int) - 1) * 86400) := by
      intro i hi
      have hi2 : (i : Int) < (days : Int) := by exact_mod_cast List.mem_range.mp hi
      have hi0 : (0 : Int) ≤ (i : Int) := Int.natCast_nonneg i
      rw [pySubDays, if_pos]
      constructor
      · nlinarith
      · nlinarith
    have hm := mapM_eq_some_map _
      (fun (i : Nat) => nowWall - ((days : Int) - (i : Int) - 1) * 86400) _ hfill
    rw [get_timeline_checked]
    simp only [hc, hm, Option.bind_eq_bind, Option.some_bind]
    simp only [get_timeline, List.map_map]
    rfl
  · simp only [get_timeline, List.map_map]
    refine List.map_congr_left ?_
    intro i hi
    simpa using dateKey_sub_days nowWall ((days : Int) - (i : Int) - 1)
  · intro p hp
    simp only [get_timeline, List.mem_map, List.mem_range] at hp
    obtain ⟨i, hi, hpe⟩ := hp
    subst hpe
    simpa using timelineBuckets_eq_countP msgs _ _
  · intro m hm
    have hb : timelineBuckets (m :: msgs) ⟨nowWall - (days : Int) * 86400, none⟩
        = timelineBuckets msgs ⟨nowWall - (days : Int) * 86400, none⟩ := by
      simp [timelineBuckets, hm]
    simp [get_timeline, hb]

/-- Record used in the C5 witness: its timestamp does not parse, so the
timeline loop skips it. -/
def msgBadTs : Msg :=
  { sender := some "ATLAS", to_ := .many ["FORGE"], priority := none,
    timestamp := "garbage", replied_by := [] }

/-- Witness for the in-range timeline density theorem at a concrete
clock and window, discharging the range, membership and skipped-record
hypotheses on concrete data. -/
theorem timeline_dense_window_in_range_witness :
    get_timeline_checked [] (739633 * 86400 + 43200) 2
        = some (get_timeline [] (739633 * 86400 + 43200) 2)
    ∧ (get_timeline [] (739633 * 86400 + 43200) 2).length = 2
    ∧ (((739633 : Int), (0 : Nat)).2
        = List.countP (fun m =>
            tlKey ⟨(739633 * 86400 + 43200 : Int) - (2 : Int) * 86400, none⟩ m
              == some ((739633 : Int), (0 : Nat)).1) [])
    ∧ get_timeline [msgBadTs] (739633 * 86400 + 43200) 2
        = get_timeline [] (739633 * 86400 + 43200) 2 := by
  have h := timeline_dense_window_in_range [] (739633 * 86400 + 43200) 2
    (by decide) (by decide)
  exact ⟨h.1, h.2.1, h.2.2.2.1 ((739633 : Int), (0 : Nat)) (by decide),
    h.2.2.2.2 msgBadTs (by decide)⟩

/-- Records used in the C1 evaluation: the same instant, once with a
trailing Z and once naive. -/
def msgZnow : Msg :=
  { sender := some "ATLAS", to_ := .many ["FORGE"], priority := some "NORMAL",
    timestamp := "2026-01-18T12:00:00Z", replied_by := [] }

/-- Naive twin of msgZnow. -/
def msgNaiveNow : Msg :=
  { sender := some "ATLAS", to_ := .many ["FORGE"], priority := some "NORMAL",
    timestamp := "2026-01-18T12:00:00", replied_by := [] }

/-- C1.  Evaluation of get_timeline at the failing input: with the clock
at 2026-01-18 12:00:00 (day number 739633), a record timestamped at that
same instant with a trailing Z parses to an aware datetime, the
comparison with the naive cutoff raises TypeError (pyGE is none), the
bare except swallows it and the record is dropped, so the bucket for
today holds 0, not 1 — while the identical naive timestamp is counted.
This contradicts the claim that a record timestamped now with a trailing
Z is counted in today's bucket. -/
theorem timeline_drops_aware_timestamp_at_now :
    fromisoZ "2026-01-18T12:00:00Z" = some ⟨739633 * 86400 + 43200, some 0⟩
    ∧ pyGE ⟨739633 * 86400 + 43200, some 0⟩
        ⟨(739633 * 86400 + 43200 : Int) - 7 * 86400, none⟩ = none
    ∧ tlKey ⟨(739633 * 86400 + 43200 : Int) - 7 * 86400, none⟩ msgZnow = none
    ∧ (get_timeline [msgZnow] (739633 * 86400 + 43200) 7).getLast? = some (739633, 0)
    ∧ (get_timeline [msgNaiveNow] (739633 * 86400 + 43200) 7).getLast? = some (739633, 1) := by
  refine ⟨by decide, by decide, by decide, by decide, by decide⟩

/-! ## Lemmas about the Counter model -/

/-- The fold building the Counter key order keeps the accumulator free
of duplicates. -/
lemma ckFold_nodup :
    ∀ (l acc : List String), acc.Nodup →
      (l.foldl (fun acc k => if acc.contains k then acc else acc ++ [k]) acc).Nodup := by
  intro l
  induction l with
  | nil => intro acc h; simpa using h
  | cons k l ih =>
    intro acc h
    simp only [List.foldl_cons]
    by_cases hk : k ∈ acc
    · have hstep : (if acc.contains k then acc else acc ++ [k]) = acc := by simp [hk]
      rw [hstep]
      exact ih acc h
    · have hstep : (if acc.contains k then acc else acc ++ [k]) = acc ++ [k] := by simp [hk]
      rw [hstep]
      exact ih (acc ++ [k]) (by simp [List.nodup_append, h, hk])

/-- Membership in the fold building the Counter key order. -/
lemma ckFold_mem :
    ∀ (l acc : List String) (x : String),
      x ∈ l.foldl (fun acc k => if acc.contains k then acc else acc ++ [k]) acc
        ↔ x ∈ acc ∨ x ∈ l := by
  intro l
  induction l with
  | nil => intro acc x; simp
  | cons k l ih =>
    intro acc x
    simp only [List.foldl_cons]
    by_cases hk : k ∈ acc
    · have hstep : (if acc.contains k then acc else acc ++ [k]) = acc := by simp [hk]
      rw [hstep, ih]
      constructor
      · rintro (h | h)
        · exact Or.inl h
        · exact Or.inr (List.mem_cons_of_mem _ h)
      · rintro (h | h)
        · exact Or.inl h
        · rcases List.mem_cons.mp h with rfl | h
          · exact Or.inl hk
          · exact Or.inr h
    · have hstep : (if acc.contains k then acc else acc ++ [k]) = acc ++ [k] := by simp [hk]
      rw [hstep, ih]
      simp [List.mem_append, List.mem_cons]
      tauto

/-- The Counter key list has no duplicates. -/
lemma counterKeys_nodup (l : List String) : (counterKeys l).Nodup :=
  ckFold_nodup l [] (by simp)

/-- The Counter key list has exactly the members of the underlying
list. -/
lemma mem_counterKeys (l : List String) (x : String) :
    x ∈ counterKeys l ↔ x ∈ l := by
  rw [counterKeys, ckFold_mem]
  simp

/-- Stable descending insertion permutes to a cons. -/
lemma insertDesc_perm (p : String × Nat) (l : List (String × Nat)) :
    (insertDesc p l).Perm (p :: l) := by
  induction l with
  | nil => simp [insertDesc]
  | cons q rest ih =>
    rw [insertDesc]
    by_cases h : q.2 > p.2
    · rw [if_pos h]
      exact (ih.cons q).trans (List.Perm.swap p q rest)
    · rw [if_neg h]

/-- The stable descending sort is a permutation. -/
lemma sortDesc_perm (l : List (String × Nat)) : (sortDesc l).Perm l := by
  induction l with
  | nil => simp [sortDesc]
  | cons p rest ih =>
    exact (insertDesc_perm p (sortDesc rest)).trans (ih.cons p)

/-- Sum of the counts of a Counter built over the multiset of keys l:
every element of l lands in exactly one bucket, so the counts add up to
the length of l. -/
lemma sum_mostCommon (l : List String) :
    ((mostCommon l).map Prod.snd).sum = l.length := by
  have h1 : ((mostCommon l).map Prod.snd).sum
      = (((counterKeys l).map (fun k => (k, l.count k))).map Prod.snd).sum :=
    ((sortDesc_perm _).map Prod.snd).sum_eq
  have h2 : (((counterKeys l).map (fun k => (k, l.count k))).map Prod.snd).sum
      = ((counterKeys l).map (fun k => l.count k)).sum := by
    rw [List.map_map]
    rfl
  have h3 : (counterKeys l).Perm l.dedup := by
    refine List.perm_of_nodup_nodup_toFinset_eq (counterKeys_nodup l) (List.nodup_dedup l) ?_
    ext x
    simp [mem_counterKeys, List.mem_dedup]
  have h4 : ((counterKeys l).map (fun k => l.count k)).sum
      = (l.dedup.map (fun k => l.count k)).sum :=
    (h3.map (fun k => l.count k)).sum_eq
  rw [h1, h2, h4]
  exact List.sum_map_count_dedup_eq_length l

/-- C4.  Conservation: for every record collection the by_sender counts
of get_summary sum to total_messages, and so do the by_priority counts;
every record contributes exactly one sender key, UNKNOWN when absent,
and one priority key, NORMAL when absent.  On the empty collection both
histograms are absent and the sums are vacuously zero, equal to
total_messages = 0. -/
theorem summary_histograms_conserve_total (msgs : List Msg) :
    ((((get_summary msgs).bySender).getD []).map Prod.snd).sum
        = (get_summary msgs).total_messages
    ∧ ((((get_summary msgs).byPriority).getD []).map Prod.snd).sum
        = (get_summary msgs).total_messages := by
  by_cases h : msgs.length = 0
  · simp [get_summary, h, SummaryResult.bySender, SummaryResult.byPriority,
      SummaryResult.total_messages]
  · constructor
    · simp only [get_summary, h, if_false, SummaryResult.bySender,
        SummaryResult.total_messages, Option.getD_some]
      rw [sum_mostCommon]
      simp
    · simp only [get_summary, h, if_false, SummaryResult.byPriority,
        SummaryResult.total_messages, Option.getD_some]
      rw [sum_mostCommon]
      simp

/-- C3 counterexample.  On the empty collection the dict returned by
get_summary carries only the total_messages and error keys: it does not
report most_active_agent = None nor most_active_count = 0, contrary to
the claim. -/
theorem empty_summary_has_no_most_active_keys :
    (get_summary []).mostActiveAgent = none
    ∧ (get_summary []).mostActiveAgent ≠ some "None"
    ∧ (get_summary []).mostActiveCount ≠ some 0 := by
  refine ⟨by decide, by decide, by decide⟩

/-- C3 amended.  On the empty collection get_summary returns the
explicit empty-state value with total_messages = 0 and the error text,
without raising; the ("None", 0) sentinel of the source is dead code,
reachable only from the non-empty branch where the sender counter is
never empty. -/
theorem empty_summary_returns_empty_state :
    get_summary [] = .emptyState 0 "No messages found"
    ∧ (get_summary []).total_messages = 0 := by
  refine ⟨by decide, by decide⟩

/-! ## Bounds on the fixed-point rounding -/

/-- The computable floor agrees with the mathematical floor. -/
lemma rfloor_eq_floor (q : ℚ) : rfloor q = ⌊q⌋ := by
  rw [Rat.floor_def, rfloor, Int.fdiv_eq_ediv _ (by positivity)]

/-- Rounding to tenths lands on the floor of ten times the value or one
above it. -/
lemma roundTenths_mem (q : ℚ) :
    roundTenths q = rfloor (10 * q) ∨ roundTenths q = rfloor (10 * q) + 1 := by
  rw [roundTenths]
  split_ifs <;> simp

/-- Rounding to tenths preserves nonnegativity. -/
lemma roundTenths_nonneg {q : ℚ} (h : 0 ≤ q) : 0 ≤ roundTenths q := by
  have hf : 0 ≤ rfloor (10 * q) := by
    rw [rfloor_eq_floor]
    exact Int.floor_nonneg.mpr (by positivity)
  rcases roundTenths_mem q with h1 | h1 <;> omega

/-- Rounding to tenths of a value at most 100 is at most 1000. -/
lemma roundTenths_le_thousand {q : ℚ} (h : q ≤ 100) : roundTenths q ≤ 1000 := by
  have h10 : (10 : ℚ) * q ≤ 1000 := by linarith
  have hfle : rfloor (10 * q) ≤ 1000 := by
    rw [rfloor_eq_floor]
    have := Int.floor_le_floor h10
    simpa using this
  rw [roundTenths]
  split_ifs with h1 h2 h3
  · exact hfle
  · have hfra : (1 : ℚ) / 2 < 10 * q - (rfloor (10 * q) : ℚ) := h2
    have : ((rfloor (10 * q) : ℚ)) < 1000 := by linarith
    have : rfloor (10 * q) < 1000 := by exact_mod_cast this
    omega
  · exact hfle
  · have hfra : (1 : ℚ) / 2 ≤ 10 * q - (rfloor (10 * q) : ℚ) := by
      push_neg at h1
      exact h1
    have : ((rfloor (10 * q) : ℚ)) < 1000 := by linarith
    have : rfloor (10 * q) < 1000 := by exact_mod_cast this
    omega

/-- The numeric value printed by the one-decimal format of a rate in
[0, 100] stays in [0, 100]. -/
lemma fixed1Val_bounds {q : ℚ} (h0 : 0 ≤ q) (h1 : q ≤ 100) :
    0 ≤ fixed1Val q ∧ fixed1Val q ≤ 100 := by
  have hr0 : (0 : ℚ) ≤ (roundTenths q : ℚ) := by
    exact_mod_cast roundTenths_nonneg h0
  have hr1 : ((roundTenths q : ℚ)) ≤ 1000 := by
    exact_mod_cast roundTenths_le_thousand h1
  constructor
  · rw [fixed1Val]
    positivity
  · rw [fixed1Val]
    linarith

/-- C6.  For a non-empty collection, get_summary reports reply_rate as
the rate replied_count / N times 100, formatted to one decimal with a
trailing percent sign; the rate is between 0 and 100, and so is the
numeric value the formatted string denotes; on the empty collection no
rate is computed because the empty-state early return fires first. -/
theorem summary_reply_rate_formula_and_bounds (msgs : List Msg) (h : msgs ≠ []) :
    (get_summary msgs).replyRate
        = some (formatFixed1 ((repliedCount msgs : ℚ) / msgs.length * 100) ++ "%")
    ∧ 0 ≤ (repliedCount msgs : ℚ) / msgs.length * 100
    ∧ (repliedCount msgs : ℚ) / msgs.length * 100 ≤ 100
    ∧ 0 ≤ fixed1Val ((repliedCount msgs : ℚ) / msgs.length * 100)
    ∧ fixed1Val ((repliedCount msgs : ℚ) / msgs.length * 100) ≤ 100
    ∧ get_summary [] = .emptyState 0 "No messages found" := by
  have hlen : msgs.length ≠ 0 := by
    simpa [List.length_eq_zero] using h
  have hlenpos : (0 : ℚ) < msgs.length := by
    exact_mod_cast Nat.pos_of_ne_zero hlen
  have hcount : repliedCount msgs ≤ msgs.length := List.length_filter_le _ _
  have hrate0 : 0 ≤ (repliedCount msgs : ℚ) / msgs.length * 100 := by positivity
  have hrate1 : (repliedCount msgs : ℚ) / msgs.length * 100 ≤ 100 := by
    have hdiv : (repliedCount msgs : ℚ) / msgs.length ≤ 1 := by
      rw [div_le_one hlenpos]
      exact_mod_cast hcount
    linarith
  refine ⟨?_, hrate0, hrate1, (fixed1Val_bounds hrate0 hrate1).1,
    (fixed1Val_bounds hrate0 hrate1).2, by decide⟩
  simp [get_summary, hlen, SummaryResult.replyRate]

/-- Collection used in the C6 witness: two records, one replied to. -/
def exReplyRate : List Msg :=
  [{ sender := some "ATLAS", to_ := .many ["FORGE"], priority := some "HIGH",
     timestamp := "", replied_by := [.dict (some "FORGE") none] },
   { sender := some "FORGE", to_ := .absent, priority := none,
     timestamp := "", replied_by := [] }]

/-- Witness for the reply-rate theorem on a concrete two-record
collection with one reply: the rate is 50 and the reported string is
50.0 percent. -/
theorem summary_reply_rate_witness :
    (get_summary exReplyRate).replyRate = some "50.0%"
    ∧ 0 ≤ (repliedCount exReplyRate : ℚ) / exReplyRate.length * 100
    ∧ (repliedCount exReplyRate : ℚ) / exReplyRate.length * 100 ≤ 100 := by
  have h := summary_reply_rate_formula_and_bounds exReplyRate (by decide)
  refine ⟨?_, h.2.1, h.2.2.1⟩
  rw [h.1]
  have hc : repliedCount exReplyRate = 1 := by decide
  have hl : exReplyRate.length = 2 := by decide
  rw [hc, hl]
  have hval : ((1 : Nat) : ℚ) / ((2 : Nat) : ℚ) * 100 = 50 := by norm_num
  rw [hval]
  have hfmt : formatFixed1 50 = "50.0" := by
    have : roundTenths 50 = 500 := by
      norm_num [roundTenths, rfloor]
    rw [formatFixed1, this]
    decide
  rw [hfmt]
  decide

/-! ## Lemmas for the agent statistics -/

/-- A formatted rate always ends in the percent sign, so it is never the
string N/A. -/
lemma append_percent_ne_na (s : String) : s ++ "%" ≠ "N/A" := by
  intro h
  have hd : s.data ++ ['%'] = ['N', '/', 'A'] := by
    have := congrArg String.data h
    simpa using this
  have hlast := congrArg List.getLast? hd
  rw [List.getLast?_concat] at hlast
  exact absurd hlast (by decide)

/-- Rounding to tenths is exact on integers. -/
lemma roundTenths_intCast (n : Int) : roundTenths ((n : ℚ)) = 10 * n := by
  simp only [roundTenths, rfloor_eq_floor]
  have h1 : ⌊(10 : ℚ) * (n : ℚ)⌋ = 10 * n := by
    rw [show (10 : ℚ) * (n : ℚ) = ((10 * n : Int) : ℚ) by push_cast; ring, Int.floor_intCast]
  rw [h1]
  have h2 : (10 : ℚ) * (n : ℚ) - ((10 * n : Int) : ℚ) = 0 := by push_cast; ring
  rw [h2]
  norm_num

/-- One-decimal formatting of an integer value renders its tenfold
tenths. -/
lemma formatFixed1_intCast (n : Int) :
    formatFixed1 ((n : ℚ)) = fmtTenths (10 * n) := by
  rw [formatFixed1, roundTenths_intCast]

/-- C7.  get_agent_stats reports response_rate as the literal N/A
exactly when the received count is zero; otherwise it is replied_to over
received times 100, formatted to one decimal with a trailing percent
sign. -/
theorem agent_response_rate_na_iff (msgs : List Msg) (name : String) :
    ((get_agent_stats msgs name).response_rate = "N/A"
        ↔ (get_agent_stats msgs name).messages_received = 0)
    ∧ ((get_agent_stats msgs name).messages_received ≠ 0 →
        (get_agent_stats msgs name).response_rate
          = formatFixed1 (((get_agent_stats msgs name).messages_replied_to : ℚ)
              / ((get_agent_stats msgs name).messages_received : ℚ) * 100) ++ "%") := by
  simp only [get_agent_stats]
  by_cases hr : (msgs.filter (fun m =>
      (toListOf m).contains (pyUpper name) || (toListOf m).contains "ALL_AGENTS")).isEmpty = true
  · have hlen : (msgs.filter (fun m =>
        (toListOf m).contains (pyUpper name) || (toListOf m).contains "ALL_AGENTS")).length = 0 := by
      rw [List.length_eq_zero]
      exact List.isEmpty_iff.mp hr
    rw [if_pos hr]
    exact ⟨⟨fun _ => hlen, fun _ => rfl⟩, fun hne => absurd hlen hne⟩
  · have hlen : (msgs.filter (fun m =>
        (toListOf m).contains (pyUpper name) || (toListOf m).contains "ALL_AGENTS")).length ≠ 0 := by
      intro he
      exact hr (List.isEmpty_iff.mpr (List.length_eq_zero.mp he))
    rw [if_neg hr]
    exact ⟨⟨fun habs => absurd habs (append_percent_ne_na _), fun hz => absurd hz hlen⟩,
      fun _ => rfl⟩

/-- Collection used in the C7 witness: one record addressed to BETA and
replied to by BETA, so received = 1, replied_to = 1 and the rate string
is 100.0 percent. -/
def exAgentRate : List Msg :=
  [{ sender := some "ALPHA", to_ := .many ["BETA"], priority := none,
     timestamp := "", replied_by := [.dict (some "BETA") none] }]

/-- Witness for the response-rate theorem: on concrete data with one
received record the rate is not N/A, and on the empty collection the
iff gives N/A because nothing is received. -/
theorem agent_response_rate_na_iff_witness :
    ((get_agent_stats exAgentRate "BETA").messages_received ≠ 0
      → (get_agent_stats exAgentRate "BETA").response_rate
          = formatFixed1 (((get_agent_stats exAgentRate "BETA").messages_replied_to : ℚ)
              / ((get_agent_stats exAgentRate "BETA").messages_received : ℚ) * 100) ++ "%")
    ∧ ((get_agent_stats [] "BETA").response_rate = "N/A"
        ↔ (get_agent_stats [] "BETA").messages_received = 0) := by
  exact ⟨(agent_response_rate_na_iff exAgentRate "BETA").2,
    (agent_response_rate_na_iff [] "BETA").1⟩

/-- Collection used for C9: ATLAS receives only the first record but
appears in the replied_by lists of the other two records, which are
addressed to FORGE. -/
def exOverCount : List Msg :=
  [{ sender := some "FORGE", to_ := .many ["ATLAS"], priority := none,
     timestamp := "", replied_by := [] },
   { sender := some "CLIO", to_ := .many ["FORGE"], priority := none,
     timestamp := "", replied_by := [.dict (some "ATLAS") none] },
   { sender := some "CLIO", to_ := .many ["FORGE"], priority := none,
     timestamp := "", replied_by := [.dict (some "ATLAS") none] }]

/-- C9.  messages_replied_to is counted over the whole collection, not
only over records the agent received: on exOverCount the agent ATLAS has
received = 1 but replied_to = 2, and the reported response_rate string
is 200.0 percent, denoting a value strictly above 100. -/
theorem agent_replied_to_exceeds_received :
    (get_agent_stats exOverCount "ATLAS").messages_received
        < (get_agent_stats exOverCount "ATLAS").messages_replied_to
    ∧ (get_agent_stats exOverCount "ATLAS").messages_received = 1
    ∧ (get_agent_stats exOverCount "ATLAS").messages_replied_to = 2
    ∧ (get_agent_stats exOverCount "ATLAS").response_rate = "200.0%"
    ∧ (100 : ℚ) < fixed1Val
        (((get_agent_stats exOverCount "ATLAS").messages_replied_to : ℚ)
          / ((get_agent_stats exOverCount "ATLAS").messages_received : ℚ) * 100) := by
  have e1 : (get_agent_stats exOverCount "ATLAS").messages_received = 1 := by decide
  have e2 : (get_agent_stats exOverCount "ATLAS").messages_replied_to = 2 := by decide
  have hval : ((2 : Nat) : ℚ) / ((1 : Nat) : ℚ) * 100 = ((200 : Int) : ℚ) := by norm_num
  refine ⟨by decide, e1, e2, ?_, ?_⟩
  · show (get_agent_stats exOverCount "ATLAS").response_rate = "200.0%"
    have hne : (exOverCount.filter (fun m =>
        (toListOf m).contains (pyUpper "ATLAS") || (toListOf m).contains "ALL_AGENTS")).isEmpty
          = false := by decide
    have hlen : (exOverCount.filter (fun m =>
        (toListOf m).contains (pyUpper "ATLAS") || (toListOf m).contains "ALL_AGENTS")).length
          = 1 := by decide
    have hrep : (exOverCount.filter (fun m =>
        m.replied_by.any (replyByAgent (pyUpper "ATLAS")))).length = 2 := by decide
    simp only [get_agent_stats, hne, hlen, hrep, Bool.false_eq_true, if_false]
    rw [hval, formatFixed1_intCast]
    decide
  · rw [e1, e2, hval, fixed1Val, roundTenths_intCast]
    norm_num

/-! ## Lemmas for the response times -/

/-- A replied_by entry is harmless for the reply loop when the loop
either skips it (not a dict, or no timestamp key) or turns it into a
sample (its timestamp parses and the subtraction does not raise). -/
def replyOk (mt : PyDateTime) : ReplyEntry → Bool
  | .notDict => true
  | .dict _ none => true
  | .dict _ (some ts) =>
    match fromisoZ ts with
    | none => false
    | some rt => (pySubSec rt mt).isSome

/-- C2 counterexample records: the same message once with a malformed
reply timestamp before a valid one, and once with only the valid
reply. -/
def msgBadThenGood : Msg :=
  { sender := some "ALPHA", to_ := .many ["BETA"], priority := none,
    timestamp := "2026-01-18T10:00:00",
    replied_by := [.dict (some "BETA") (some "garbage"),
                   .dict (some "BETA") (some "2026-01-18T11:00:00")] }

/-- Twin of msgBadThenGood without the malformed reply. -/
def msgGoodOnly : Msg :=
  { sender := some "ALPHA", to_ := .many ["BETA"], priority := none,
    timestamp := "2026-01-18T10:00:00",
    replied_by := [.dict (some "BETA") (some "2026-01-18T11:00:00")] }

/-- C2 counterexample.  The valid reply of msgBadThenGood contributes a
sample when it stands alone, but contributes nothing when a malformed
reply timestamp precedes it in the same record, because the try block of
the source wraps the whole reply loop: the claim that only the bad
sample is excluded is false. -/
theorem bad_reply_timestamp_suppresses_later_sample :
    (get_response_times [msgBadThenGood]).messages_analyzed = 0
    ∧ (get_response_times [msgBadThenGood]).average_minutes = "N/A"
    ∧ (get_response_times [msgGoodOnly]).messages_analyzed = 1 := by
  refine ⟨by decide, by decide, by decide⟩

/-- C2 amended.  A malformed reply timestamp excludes its own sample and
every later reply of the same record, while samples of earlier,
well-formed replies of that record are kept, and the samples of other
records are unaffected (the per-record sample lists concatenate). -/
theorem bad_reply_timestamp_skips_rest_of_record :
    (∀ (pre post : List Msg) (m : Msg),
      responseSamples (pre ++ m :: post)
        = responseSamples pre ++ recordSamples m ++ responseSamples post)
    ∧ (∀ (mt : PyDateTime) (rs₁ rs₂ : List ReplyEntry) (a : Option String) (ts : String),
        (∀ r ∈ rs₁, replyOk mt r = true) →
        fromisoZ ts = none →
        collectReplies mt (rs₁ ++ .dict a (some ts) :: rs₂) = collectReplies mt rs₁) := by
  constructor
  · intro pre post m
    simp [responseSamples, List.map_append, List.flatten_append]
  · intro mt rs₁ rs₂ a ts hok hbad
    induction rs₁ with
    | nil =>
      simp only [List.nil_append, collectReplies, hbad]
    | cons r rs ih =>
      have hr := hok r (by simp)
      have hrest : ∀ x ∈ rs, replyOk mt x = true := fun x hx => hok x (by simp [hx])
      cases r with
      | notDict =>
        simp only [List.cons_append, collectReplies]
        exact ih hrest
      | dict a0 tso =>
        cases tso with
        | none =>
          simp only [List.cons_append, collectReplies]
          exact ih hrest
        | some ts0 =>
          cases hp : fromisoZ ts0 with
          | none => simp [replyOk, hp] at hr
          | some rt =>
            cases hs : pySubSec rt mt with
            | none => simp [replyOk, hp, hs] at hr
            | some secs =>
              simp only [List.cons_append, collectReplies, hp, hs]
              exact congrArg (fun l => ((secs : ℚ) / 60) :: l) (ih hrest)

/-- Witness for the amended C2 theorem on concrete data: one good reply
before the malformed one is kept, the reply after it is dropped, and
record sample lists concatenate across records. -/
theorem bad_reply_timestamp_skips_rest_of_record_witness :
    responseSamples ([msgGoodOnly] ++ msgBadThenGood :: [])
        = responseSamples [msgGoodOnly] ++ recordSamples msgBadThenGood ++ responseSamples []
    ∧ collectReplies ⟨739633 * 86400 + 36000, none⟩
        ([ReplyEntry.dict (some "BETA") (some "2026-01-18T11:00:00")]
          ++ ReplyEntry.dict (some "BETA") (some "garbage")
            :: [ReplyEntry.dict (some "BETA") (some "2026-01-18T12:00:00")])
        = collectReplies ⟨739633 * 86400 + 36000, none⟩
            [ReplyEntry.dict (some "BETA") (some "2026-01-18T11:00:00")] := by
  exact ⟨bad_reply_timestamp_skips_rest_of_record.1 [msgGoodOnly] [] msgBadThenGood,
    bad_reply_timestamp_skips_rest_of_record.2 ⟨739633 * 86400 + 36000, none⟩
      [.dict (some "BETA") (some "2026-01-18T11:00:00")]
      [.dict (some "BETA") (some "2026-01-18T12:00:00")]
      (some "BETA") "garbage" (by decide) (by decide)⟩

/-- C10 record: its only reply is timestamped one hour before the
message itself. -/
def msgEarlyReply : Msg :=
  { sender := some "ALPHA", to_ := .many ["BETA"], priority := none,
    timestamp := "2026-01-18T10:00:00",
    replied_by := [.dict (some "BETA") (some "2026-01-18T09:00:00")] }

/-- C10.  get_response_times imposes no ordering between message and
reply timestamps: a reply one hour before its message yields the sample
-60 minutes, so the reported fastest_minutes and average_minutes are the
negative string -60.0 and the minimum sample is negative. -/
theorem response_times_can_be_negative :
    listMin (responseSamples [msgEarlyReply]) < 0
    ∧ (get_response_times [msgEarlyReply]).messages_analyzed = 1
    ∧ (get_response_times [msgEarlyReply]).fastest_minutes = "-60.0"
    ∧ (get_response_times [msgEarlyReply]).average_minutes = "-60.0" := by
  have hsamp : responseSamples [msgEarlyReply] = [((-3600 : Int) : ℚ) / 60] := by rfl
  have hq : ((-3600 : Int) : ℚ) / 60 = ((-60 : Int) : ℚ) := by norm_num
  have hsamp2 : responseSamples [msgEarlyReply] = [((-60 : Int) : ℚ)] := by rw [hsamp, hq]
  have hmin : listMin [((-60 : Int) : ℚ)] = ((-60 : Int) : ℚ) := by rfl
  have hne : ¬(([((-60 : Int) : ℚ)] : List ℚ).isEmpty = true) := by decide
  have hfmt : formatFixed1 ((-60 : Int) : ℚ) = "-60.0" := by
    rw [formatFixed1_intCast]
    decide
  refine ⟨?_, ?_, ?_, ?_⟩
  · rw [hsamp2, hmin]
    norm_num
  · simp only [get_response_times, hsamp2]
    rw [if_neg hne]
    rfl
  · simp only [get_response_times, hsamp2]
    rw [if_neg hne]
    show formatFixed1 (listMin [((-60 : Int) : ℚ)]) = "-60.0"
    rw [hmin, hfmt]
  · simp only [get_response_times, hsamp2]
    rw [if_neg hne]
    show formatFixed1 (List.sum [((-60 : Int) : ℚ)]
        / (([((-60 : Int) : ℚ)] : List ℚ).length : ℚ)) = "-60.0"
    have havg : List.sum [((-60 : Int) : ℚ)]
        / (([((-60 : Int) : ℚ)] : List ℚ).length : ℚ) = ((-60 : Int) : ℚ) := by
      simp
    rw [havg, hfmt]

end SynapseStats
